import Mathlib

/-!
Shallow embedding of `src/onewire.c` (1-wire bit transceiver for ATTiny85).

The driver state is `struct onewire onewire0` (fields `state` and `bit`)
together with the hardware registers the code touches: the timer compare
register `OCR0A`, the timer counter `TCNT0`, and the PIN bit of `DDRB`
(modelled as the Boolean `driving`: `true` means the pin is an output
driving the bus low, `false` means the pin is released / tri-stated).

The interrupt handler `ISR(TIMER0_COMPA_vect)` is modelled as a step
function `stepISR` on this state, parameterised by the bus level `pin`
(the PINB bit) at the instant the interrupt fires.  The busy-wait loops
`while (onewire0.state != OW0_IDLE) { }` of `_writebit`/`_readbit` are
modelled by `awaitIdle`, which fires the interrupt handler repeatedly
(fuel-bounded) until the state returns to idle; `pins i` is the bus level
observed at the i-th compare-match interrupt of the transfer.
-/

set_option maxRecDepth 10000

namespace OneWire

/-- `#define GAP_A 6` — write-1 bit bus low and read bit bus low. -/
def GAP_A : Nat := 6

/-- `#define GAP_B 64` — write-1 bit release bus. -/
def GAP_B : Nat := 64

/-- `#define GAP_C 60` — write-0 bit bus low. -/
def GAP_C : Nat := 60

/-- `#define GAP_D 10` — write-0 bit release bus. -/
def GAP_D : Nat := 10

/-- `#define GAP_E 9` — read bit release bus. -/
def GAP_E : Nat := 9

/-- `#define GAP_F 55` — read bit after sampling. -/
def GAP_F : Nat := 55

/-- `#define GAP_G 0` — reset devices initial delay (unused by the core). -/
def GAP_G : Nat := 0

/-- `#define GAP_H 60` — reset devices bus low (unused by the core). -/
def GAP_H : Nat := 60

/-- `#define GAP_I 9` — reset devices release bus (unused by the core). -/
def GAP_I : Nat := 9

/-- `#define GAP_J 51` — reset devices delay after sampling (unused by the core). -/
def GAP_J : Nat := 51

/-- `enum onewire0_state` from `onewire.c`. -/
inductive OWState where
  | idle
  | write0Low
  | write0Release
  | write1Low
  | write1Release
  | readLow
  | readSample
  | readRelease
  deriving DecidableEq, Repr

/-- The driver state `struct onewire onewire0` plus the hardware registers the
code reads and writes: `state`, `bit` (both `uint8_t`), the compare register
`OCR0A`, the counter `TCNT0`, and `driving` for the PIN bit of `DDRB`
(`true` = output, i.e. pulling the bus low; `false` = input, bus released). -/
structure Machine where
  state : OWState
  bit : Nat
  ocr0a : Nat
  tcnt0 : Nat
  driving : Bool
  deriving DecidableEq, Repr

/-- `ISR(TIMER0_COMPA_vect)`: one firing of the compare-match interrupt.
`pin` is the bus level (`PINB & PIN`) at that instant; `_release()` clears
the DDRB bit, i.e. sets `driving := false`. -/
def stepISR (pin : Bool) (m : Machine) : Machine :=
  match m.state with
  | OWState.idle => m
  | OWState.write0Low =>
      { m with driving := false, ocr0a := GAP_D, state := OWState.write0Release }
  | OWState.write0Release => { m with state := OWState.idle }
  | OWState.write1Low =>
      { m with driving := false, ocr0a := GAP_B, state := OWState.write1Release }
  | OWState.write1Release => { m with state := OWState.idle }
  | OWState.readLow =>
      { m with driving := false, ocr0a := GAP_E, state := OWState.readSample }
  | OWState.readSample =>
      { m with bit := if pin then 1 else 0, ocr0a := GAP_F, state := OWState.readRelease }
  | OWState.readRelease => { m with state := OWState.idle }

/-- The busy-wait `while (onewire0.state != OW0_IDLE) { }`: the state only
changes when the interrupt fires, so the wait is modelled as firing `stepISR`
until the state is idle (fuel-bounded; every armed slot needs at most three
firings).  The second component counts the interrupts fired so far, so that
`pins i` is the bus level at the i-th interrupt of the transfer. -/
def awaitIdle (pins : Nat → Bool) : Nat → Machine × Nat → Machine × Nat
  | 0, mi => mi
  | fuel+1, mi =>
      if mi.1.state = OWState.idle then mi
      else awaitIdle pins fuel (stepISR (pins mi.2) mi.1, mi.2 + 1)

/-- The arming part of `_writebit(value)`: `TCNT0 = 0`, then depending on
`value` set `OCR0A`/`state` and `_pulllow()` (set the DDRB bit). -/
def writebitArm (value : Nat) (m : Machine) : Machine :=
  if value ≠ 0 then
    { m with tcnt0 := 0, ocr0a := GAP_A, state := OWState.write1Low, driving := true }
  else
    { m with tcnt0 := 0, ocr0a := GAP_C, state := OWState.write0Low, driving := true }

/-- `_writebit(value)`: arm the slot, then busy-wait to idle. -/
def writebit (pins : Nat → Bool) (value : Nat) (m : Machine) (i : Nat) : Machine × Nat :=
  awaitIdle pins 4 (writebitArm value m, i)

/-- The arming part of `_readbit()`: `TCNT0 = 0; OCR0A = GAP_A;
state = OW0_READ_LOW; _pulllow()`. -/
def readbitArm (m : Machine) : Machine :=
  { m with tcnt0 := 0, ocr0a := GAP_A, state := OWState.readLow, driving := true }

/-- `_readbit()`: arm the slot, busy-wait to idle, return `onewire0.bit`. -/
def readbit (pins : Nat → Bool) (m : Machine) (i : Nat) : Nat × Machine × Nat :=
  let r := awaitIdle pins 4 (readbitArm m, i)
  (r.1.bit, r.1, r.2)

/-- The loop of `onewire0_writebyte`:
`for (bit = 0; bit < 8; bit++) { _writebit(byte & 1); byte >>= 1; }`.
The first component records the argument of each `_writebit` call in order. -/
def writebyteLoop (pins : Nat → Bool) : Nat → Nat → Machine × Nat → List Nat × Machine × Nat
  | 0, _, mi => ([], mi.1, mi.2)
  | k+1, byte, mi =>
      let r := writebit pins (byte &&& 1) mi.1 mi.2
      let rest := writebyteLoop pins k (byte >>> 1) r
      ((byte &&& 1) :: rest.1, rest.2.1, rest.2.2)

/-- `onewire0_writebyte(byte)`: `_starttimer()` (which zeroes `TCNT0`), then
the 8-iteration write loop.  Returns the list of bits handed to `_writebit`,
the final machine state, and the number of interrupts fired. -/
def onewire0_writebyte (pins : Nat → Bool) (byte : Nat) (m : Machine) :
    List Nat × Machine × Nat :=
  writebyteLoop pins 8 byte ({ m with tcnt0 := 0 }, 0)

/-- The loop of `onewire0_readbyte`:
`for (bit = 0; bit < 8; bit++) { if (_readbit()) { byte |= 0x80; } byte >>= 1; }`.
Components: assembled byte, list of the values returned by `_readbit` in
order, final machine state, interrupt count. -/
def readbyteLoop (pins : Nat → Bool) : Nat → Nat → Machine × Nat → Nat × List Nat × Machine × Nat
  | 0, byte, mi => (byte, [], mi.1, mi.2)
  | k+1, byte, mi =>
      let r := readbit pins mi.1 mi.2
      let byte2 := (if r.1 ≠ 0 then byte ||| 0x80 else byte) >>> 1
      let rest := readbyteLoop pins k byte2 (r.2.1, r.2.2)
      (rest.1, r.1 :: rest.2.1, rest.2.2.1, rest.2.2.2)

/-- `onewire0_readbyte()`: `_starttimer()`, then the 8-iteration read loop
starting from `byte = 0`. -/
def onewire0_readbyte (pins : Nat → Bool) (m : Machine) :
    Nat × List Nat × Machine × Nat :=
  readbyteLoop pins 8 0 ({ m with tcnt0 := 0 }, 0)

/-- Machine state right after `onewire0_init()`: state idle, pin released
(DDRB bit cleared); the remaining registers concretely zero. -/
def m0 : Machine :=
  { state := OWState.idle, bit := 0, ocr0a := 0, tcnt0 := 0, driving := false }

/-- Loopback composition: the bits emitted by `onewire0_writebyte v` (its
`_writebit` argument list) are fed back, in order, as the sampled bus level
of the corresponding read slot of `onewire0_readbyte`.  Read slot k consumes
interrupts 3k, 3k+1, 3k+2 and samples at interrupt 3k+1, so the bus level at
interrupt i is bit `i / 3` of the written sequence. -/
def loopback (v : Nat) : Nat :=
  let w := (onewire0_writebyte (fun _ => false) v m0).1
  (onewire0_readbyte (fun i => w.getD (i / 3) 0 != 0) m0).1


/-! ## Execution lemmas for the bit primitives and loops -/

/-- Running `_readbit` at interrupt index `i`: the slot fires three interrupts
(readLow → readSample → readRelease → idle) and returns the bus level sampled
at interrupt `i + 1`. -/
theorem readbit_run (pins : Nat → Bool) (m : Machine) (i : Nat) :
    readbit pins m i =
      (if pins (i+1) then 1 else 0,
       { state := OWState.idle, bit := if pins (i+1) then 1 else 0,
         ocr0a := GAP_F, tcnt0 := 0, driving := false },
       i + 3) := by
  simp only [readbit, readbitArm, awaitIdle, stepISR]
  simp

/-- Running `_writebit(0)`: two interrupts (write0Low → write0Release → idle). -/
theorem writebit_run_zero (pins : Nat → Bool) (m : Machine) (i : Nat) :
    writebit pins 0 m i =
      ({ state := OWState.idle, bit := m.bit,
         ocr0a := GAP_D, tcnt0 := 0, driving := false }, i + 2) := by
  simp only [writebit, writebitArm, awaitIdle, stepISR]
  simp

/-- Running `_writebit` on a nonzero value: two interrupts
(write1Low → write1Release → idle). -/
theorem writebit_run_pos (pins : Nat → Bool) (v : Nat) (m : Machine) (i : Nat) :
    writebit pins (v+1) m i =
      ({ state := OWState.idle, bit := m.bit,
         ocr0a := GAP_B, tcnt0 := 0, driving := false }, i + 2) := by
  simp only [writebit, writebitArm, awaitIdle, stepISR]
  simp

/-- Every `_writebit` call, for either bit value, returns with the state idle,
the bus released, and exactly two interrupts consumed. -/
theorem writebit_final (pins : Nat → Bool) (v : Nat) (m : Machine) (i : Nat) :
    (writebit pins v m i).1.state = OWState.idle ∧
    (writebit pins v m i).1.driving = false ∧
    (writebit pins v m i).2 = i + 2 := by
  cases v with
  | zero => simp [writebit_run_zero]
  | succ n => simp [writebit_run_pos]

/-- The write loop hands `_writebit` the bits `byte >>> j &&& 1` for
`j = 0, …, k-1`, in that order. -/
theorem writebyteLoop_bits (pins : Nat → Bool) :
    ∀ (k byte : Nat) (mi : Machine × Nat),
      (writebyteLoop pins k byte mi).1 = (List.range k).map (fun j => byte >>> j &&& 1) := by
  intro k
  induction k with
  | zero => intro byte mi; simp [writebyteLoop]
  | succ k ih =>
      intro byte mi
      simp [writebyteLoop, ih, List.range_succ_eq_map, List.map_map, Function.comp,
        ← Nat.shiftRight_add, Nat.add_comm]

/-- A write loop of at least one iteration ends with the state idle and the
bus released. -/
theorem writebyteLoop_idle (pins : Nat → Bool) :
    ∀ (k byte : Nat) (mi : Machine × Nat),
      (writebyteLoop pins (k+1) byte mi).2.1.state = OWState.idle ∧
      (writebyteLoop pins (k+1) byte mi).2.1.driving = false := by
  intro k
  induction k with
  | zero =>
      intro byte mi
      have h := writebit_final pins (byte % 2) mi.1 mi.2
      simp [writebyteLoop]
      exact ⟨h.1, h.2.1⟩
  | succ k ih =>
      intro byte mi
      simp only [writebyteLoop]
      exact ih _ _

/-- A read loop of at least one iteration ends with the state idle and the
bus released. -/
theorem readbyteLoop_idle (pins : Nat → Bool) :
    ∀ (k byte : Nat) (mi : Machine × Nat),
      (readbyteLoop pins (k+1) byte mi).2.2.1.state = OWState.idle ∧
      (readbyteLoop pins (k+1) byte mi).2.2.1.driving = false := by
  intro k
  induction k with
  | zero =>
      intro byte mi
      simp [readbyteLoop, readbit_run]
  | succ k ih =>
      intro byte mi
      simp only [readbyteLoop]
      exact ih _ _

/-- One unrolling of the read loop starting at interrupt index `i`, with the
`_readbit` call already evaluated: the slot samples the bus at interrupt
`i + 1`, the accumulator is OR-ed at 0x80 when the sample is high and then
shifted right, and the next iteration starts at interrupt `i + 3`. -/
theorem readbyteLoop_step (pins : Nat → Bool) (k byte : Nat) (m : Machine) (i : Nat) :
    readbyteLoop pins (k+1) byte (m, i) =
      ((readbyteLoop pins k ((if pins (i+1) then byte ||| 128 else byte) >>> 1)
          ({ state := OWState.idle, bit := if pins (i+1) then 1 else 0,
             ocr0a := GAP_F, tcnt0 := 0, driving := false }, i+3)).1,
       (if pins (i+1) then 1 else 0) ::
         (readbyteLoop pins k ((if pins (i+1) then byte ||| 128 else byte) >>> 1)
            ({ state := OWState.idle, bit := if pins (i+1) then 1 else 0,
               ocr0a := GAP_F, tcnt0 := 0, driving := false }, i+3)).2.1,
       (readbyteLoop pins k ((if pins (i+1) then byte ||| 128 else byte) >>> 1)
          ({ state := OWState.idle, bit := if pins (i+1) then 1 else 0,
             ocr0a := GAP_F, tcnt0 := 0, driving := false }, i+3)).2.2.1,
       (readbyteLoop pins k ((if pins (i+1) then byte ||| 128 else byte) >>> 1)
          ({ state := OWState.idle, bit := if pins (i+1) then 1 else 0,
             ocr0a := GAP_F, tcnt0 := 0, driving := false }, i+3)).2.2.2) := by
  cases h : pins (i+1) <;> simp [readbyteLoop, readbit_run, h]

/-! ## Claim theorems -/

/-- Claim C1: the round-trip claim fails on this code.  Feeding the bits
emitted by `onewire0_writebyte v` back, in order, as the sampled bus levels
of `onewire0_readbyte` does NOT return `v`: it returns `v >>> 1` for every
8-bit `v`.  Concretely, writing 1 reads back 0 (not 1), writing 0xA5 reads
back 0x52. -/
theorem loopback_drops_first_bit :
    loopback 1 = 0 ∧ loopback 0xA5 = 0x52 ∧ loopback 0xFF = 0x7F ∧
    ∀ v : Fin 256, loopback v.val = v.val / 2 := by decide

/-- Claim C2 (counterexample to the stated net effect): with a bus trace in
which the first read slot samples 1 and the remaining seven sample 0, the
`_readbit` results are `[1,0,0,0,0,0,0,0]`, yet the assembled byte is 0 and
not 1 — the first bit received does not become the least-significant bit of
the result. -/
theorem readbyte_first_bit_lost :
    (onewire0_readbyte (fun i => decide (i < 3)) m0).2.1 = [1, 0, 0, 0, 0, 0, 0, 0] ∧
    (onewire0_readbyte (fun i => decide (i < 3)) m0).1 = 0 ∧
    (onewire0_readbyte (fun i => decide (i < 3)) m0).1 ≠ 1 := by decide

/-- Claim C2 (amended): `onewire0_readbyte` performs exactly 8 `_readbit`
operations (read slot k samples the bus at interrupt 3k+1), ORs each returned
bit into position 0x80 of the accumulator and right-shifts after every
insertion, including the last; the net effect is that the k-th bit received
(0-indexed, k ≥ 1) becomes bit k-1 of the returned byte and the first bit
received is discarded. -/
theorem readbyte_assembly (pins : Nat → Bool) (m : Machine) :
    (onewire0_readbyte pins m).2.1 =
      [if pins 1 then 1 else 0, if pins 4 then 1 else 0, if pins 7 then 1 else 0,
       if pins 10 then 1 else 0, if pins 13 then 1 else 0, if pins 16 then 1 else 0,
       if pins 19 then 1 else 0, if pins 22 then 1 else 0] ∧
    (onewire0_readbyte pins m).1 =
      (if pins 4 then 1 else 0) + 2 * (if pins 7 then 1 else 0) +
      4 * (if pins 10 then 1 else 0) + 8 * (if pins 13 then 1 else 0) +
      16 * (if pins 16 then 1 else 0) + 32 * (if pins 19 then 1 else 0) +
      64 * (if pins 22 then 1 else 0) := by
  simp only [onewire0_readbyte, readbyteLoop_step]
  simp only [readbyteLoop]
  generalize pins 1 = b1
  generalize pins 4 = b2
  generalize pins 7 = b3
  generalize pins 10 = b4
  generalize pins 13 = b5
  generalize pins 16 = b6
  generalize pins 19 = b7
  generalize pins 22 = b8
  revert b1 b2 b3 b4 b5 b6 b7 b8
  decide

/-- Claim C3: `onewire0_writebyte(byte)` performs exactly 8 `_writebit`
operations in LSB-first order — the k-th call (0-indexed) receives bit k of
the argument, i.e. `byte >>> k &&& 1 = byte / 2^k % 2` — and
`onewire0_writebyte 0xA5` emits the bit sequence 1,0,1,0,0,1,0,1. -/
theorem writebyte_lsb_first (pins : Nat → Bool) (v : Nat) (m : Machine) :
    (onewire0_writebyte pins v m).1 = (List.range 8).map (fun k => v >>> k &&& 1) ∧
    (onewire0_writebyte pins v m).1 = (List.range 8).map (fun k => v / 2 ^ k % 2) ∧
    ((onewire0_writebyte pins v m).1).length = 8 ∧
    (onewire0_writebyte pins 0xA5 m).1 = [1, 0, 1, 0, 0, 1, 0, 1] := by
  refine ⟨?_, ?_, ?_, ?_⟩
  · simp [onewire0_writebyte, writebyteLoop_bits]
  · simp [onewire0_writebyte, writebyteLoop_bits, Nat.shiftRight_eq_div_pow, Nat.and_one_is_mod]
  · simp [onewire0_writebyte, writebyteLoop_bits]
  · rw [onewire0_writebyte, writebyteLoop_bits]
    decide

/-- Claim C4: the interrupt handler implements exactly the specified
transition table — idle is a no-op; write0Low releases the bus, programs
interval D and moves to write0Release; write1Low releases the bus, programs
interval B and moves to write1Release; readLow releases the bus, programs
interval E and moves to readSample; readSample stores the pin level into the
sampled bit, programs interval F and moves to readRelease; the three release
states move to idle with no other effect. -/
theorem isr_transition_table (m : Machine) (pin : Bool) :
    stepISR pin { m with state := OWState.idle } = { m with state := OWState.idle } ∧
    stepISR pin { m with state := OWState.write0Low } =
      { m with state := OWState.write0Release, ocr0a := GAP_D, driving := false } ∧
    stepISR pin { m with state := OWState.write0Release } = { m with state := OWState.idle } ∧
    stepISR pin { m with state := OWState.write1Low } =
      { m with state := OWState.write1Release, ocr0a := GAP_B, driving := false } ∧
    stepISR pin { m with state := OWState.write1Release } = { m with state := OWState.idle } ∧
    stepISR pin { m with state := OWState.readLow } =
      { m with state := OWState.readSample, ocr0a := GAP_E, driving := false } ∧
    stepISR pin { m with state := OWState.readSample } =
      { m with state := OWState.readRelease, ocr0a := GAP_F, bit := if pin then 1 else 0 } ∧
    stepISR pin { m with state := OWState.readRelease } = { m with state := OWState.idle } :=
  ⟨rfl, rfl, rfl, rfl, rfl, rfl, rfl, rfl⟩

/-- Claim C5: `_writebit(value)` zeroes the timer counter, programs duration
A and state write1Low when `value` is nonzero, programs duration C and state
write0Low when `value` is zero, drives the bus low, and busy-waits; on
return the state is idle and the bus is released. -/
theorem writebit_behavior (pins : Nat → Bool) (v : Nat) (m : Machine) (i : Nat) :
    writebitArm (v+1) m =
      { m with tcnt0 := 0, ocr0a := GAP_A, state := OWState.write1Low, driving := true } ∧
    writebitArm 0 m =
      { m with tcnt0 := 0, ocr0a := GAP_C, state := OWState.write0Low, driving := true } ∧
    (writebit pins v m i).1.state = OWState.idle ∧
    (writebit pins v m i).1.driving = false := by
  exact ⟨by simp [writebitArm], by simp [writebitArm],
    (writebit_final pins v m i).1, (writebit_final pins v m i).2.1⟩

/-- Claim C6: `_readbit()` zeroes the timer counter, programs duration A,
sets state readLow, drives the bus low, busy-waits to idle, and returns
exactly the sampled-bit value the handler captured from the pin during the
readSample transition of this slot (the second interrupt, index `i + 1`). -/
theorem readbit_behavior (pins : Nat → Bool) (m : Machine) (i : Nat) :
    readbitArm m =
      { m with tcnt0 := 0, ocr0a := GAP_A, state := OWState.readLow, driving := true } ∧
    (stepISR (pins i) (readbitArm m)).state = OWState.readSample ∧
    (readbit pins m i).1 = (stepISR (pins (i+1)) (stepISR (pins i) (readbitArm m))).bit ∧
    (readbit pins m i).1 = (if pins (i+1) then 1 else 0) ∧
    (readbit pins m i).2.1.state = OWState.idle ∧
    (readbit pins m i).2.2 = i + 3 := by
  refine ⟨rfl, rfl, ?_, ?_, ?_, ?_⟩ <;> simp [readbit_run, stepISR, readbitArm]

/-- Claim C7: the six bit-slot timing constants have the mandated values
A = 6, B = 64, C = 60, D = 10, E = 9, F = 55, and each phase programs the
compare register with its constant: A for the write-1 and read low phases,
C for the write-0 low phase, and B, D, E, F programmed by the handler for the
write-1 release, write-0 release, read sample-wait and read post-sample
phases respectively. -/
theorem timing_constants (m : Machine) (pin : Bool) (v : Nat) :
    GAP_A = 6 ∧ GAP_B = 64 ∧ GAP_C = 60 ∧ GAP_D = 10 ∧ GAP_E = 9 ∧ GAP_F = 55 ∧
    (writebitArm (v+1) m).ocr0a = GAP_A ∧
    (writebitArm 0 m).ocr0a = GAP_C ∧
    (readbitArm m).ocr0a = GAP_A ∧
    (stepISR pin { m with state := OWState.write1Low }).ocr0a = GAP_B ∧
    (stepISR pin { m with state := OWState.write0Low }).ocr0a = GAP_D ∧
    (stepISR pin { m with state := OWState.readLow }).ocr0a = GAP_E ∧
    (stepISR pin { m with state := OWState.readSample }).ocr0a = GAP_F := by
  refine ⟨rfl, rfl, rfl, rfl, rfl, rfl, ?_, rfl, rfl, rfl, rfl, rfl, rfl⟩
  simp [writebitArm]

/-- Claim C8: every call to `_writebit`, `_readbit`, `onewire0_writebyte`
and `onewire0_readbyte` leaves the operation state idle on return (here
proved for every entry state, in particular for an idle one; the busy-wait
only terminates once the handler has set the state back to idle). -/
theorem routines_leave_idle (pins : Nat → Bool) (v : Nat) (m : Machine) (i : Nat) :
    (writebit pins v m i).1.state = OWState.idle ∧
    (readbit pins m i).2.1.state = OWState.idle ∧
    (onewire0_writebyte pins v m).2.1.state = OWState.idle ∧
    (onewire0_readbyte pins m).2.2.1.state = OWState.idle := by
  refine ⟨(writebit_final pins v m i).1, ?_, ?_, ?_⟩
  · simp [readbit_run]
  · exact (writebyteLoop_idle pins 7 v _).1
  · exact (readbyteLoop_idle pins 7 0 _).1

/-- Claim C9: the interrupt handler never drives the bus low — each step
either leaves the pin drive direction unchanged or releases the pin — while
pulling the bus low is done by the arming part of the initiating bit
routines before their busy-wait begins. -/
theorem isr_only_releases (pin : Bool) (m : Machine) (v : Nat) :
    ((stepISR pin m).driving = m.driving ∨ (stepISR pin m).driving = false) ∧
    (writebitArm v m).driving = true ∧
    (readbitArm m).driving = true := by
  refine ⟨?_, ?_, rfl⟩
  · rcases m with ⟨s, b, o, t, d⟩
    cases s <;> simp [stepISR]
  · cases v <;> simp [writebitArm]

/-- Claim C10: for every sequence of eight sampled bit values the byte
returned by `onewire0_readbyte` is strictly less than 0x80 (its
most-significant bit is 0), the eighth sampled bit (read slot 7, sampled at
interrupt 22) ends up in bit position 6, and the first sampled bit (read
slot 0, sampled at interrupt 1) is discarded: replacing it by any value `b`
leaves the result unchanged. -/
theorem readbyte_msb_zero (pins : Nat → Bool) (m : Machine) (b : Bool) :
    (onewire0_readbyte pins m).1 < 128 ∧
    Nat.testBit (onewire0_readbyte pins m).1 6 = pins 22 ∧
    (onewire0_readbyte pins m).1 =
      (onewire0_readbyte (fun j => if j = 1 then b else pins j) m).1 := by
  simp only [onewire0_readbyte, readbyteLoop_step]
  simp only [readbyteLoop]
  norm_num
  generalize pins 1 = b1
  generalize pins 4 = b2
  generalize pins 7 = b3
  generalize pins 10 = b4
  generalize pins 13 = b5
  generalize pins 16 = b6
  generalize pins 19 = b7
  generalize pins 22 = b8
  revert b b1 b2 b3 b4 b5 b6 b7 b8
  decide

end OneWire
